import Mathlib

/-!
# Verification of syncrepo (scanner `FindGitReposParallel`, executor `pullGitRepos`)

Shallow embedding of the two core components of the repository:

* `src/find-repos.go` — `FindGitReposParallel`, a worker pool consuming a
  shared buffered channel of scan jobs, with an atomic counter (`active`)
  that is meant to close the channel when it transitions to zero.
  We embed the single-worker (`workers = 1`) schedule as a fuel-indexed
  small-step interpreter over an explicit state.  A single worker is a legal
  schedule of the Go program for every worker count `W ≥ 1` (additional
  workers only add interleavings), so any behaviour exhibited here is a
  behaviour of the program.  Go channel semantics embedded faithfully:
  `for j := range jobs` keeps draining a closed channel's buffer; a send on
  a closed channel panics; closing a closed channel panics.

* `src/main.go` — `pullGitRepos`, the three-tier escalating synchronizer.
  External `git` invocations are an oracle (`GitEnv`): one outcome per
  distinct command invocation per repository (the tier-0 pull and the
  tier-2 retry pull are separate invocations of the same command, hence
  separate oracle fields).  The `failedRepos` map is an association list;
  Go's map iteration order is unspecified, and every property proved below
  is per-repository and independent of that order.
-/

namespace SyncRepo

/-! ## File system model

`os.ReadDir` either lists the immediate entries of a directory or fails.
`FSNode.dir none` is a directory whose listing fails (permission denied,
removed mid-scan, ...); `FSNode.file` is a non-directory entry. -/

inductive FSNode where
  | file : FSNode
  | dir : Option (List (String × FSNode)) → FSNode

/-- `e.IsDir()` of a directory entry. -/
def isDir : FSNode → Bool
  | FSNode.file => false
  | FSNode.dir _ => true

/-- `os.ReadDir`: `none` models a non-nil error. -/
def readDir : FSNode → Option (List (String × FSNode))
  | FSNode.file => none
  | FSNode.dir o => o

/-- The marker subdirectory name. -/
def dotGit : String := ".git"

/-- The loop `for _, e := range entries { if e.IsDir() && e.Name() == ".git" ... }`:
whether some entry is a directory named `.git`. -/
def hasGitDir (entries : List (String × FSNode)) : Bool :=
  entries.any (fun p => isDir p.2 && p.1 == dotGit)

/-- `filepath.Join` restricted to a clean path and a single clean entry name,
which is the only way the scanner uses it. -/
def pathJoin (a b : String) : String := a ++ "/" ++ b

/-! ## Scanner state (one `job` = one channel element) -/

structure Job where
  path : String
  node : FSNode

/-- The mutable state of a run of `FindGitReposParallel`:
`queue` is the buffered channel `jobs`, `active` the atomic counter,
`closed` whether `close(jobs)` has happened, `results` the collected slice.
`minActive` and `closeEvents` are ghost observers (they never influence
control flow): the minimum value the counter ever took, and how many times
`close(jobs)` was executed. -/
structure ScanState where
  queue : List Job
  active : Int
  closed : Bool
  results : List String
  minActive : Int
  closeEvents : Nat

def sendClosedMsg : String := "send on closed channel"
def closeClosedMsg : String := "close of closed channel"

/-- `active.Add(-1)` followed by `if result == 0 { close(jobs) }`.
`none` models the panic of closing an already-closed channel. -/
def decAndClose (st : ScanState) : Option ScanState :=
  let a := st.active - 1
  let st1 : ScanState := { st with active := a, minActive := min st.minActive a }
  if a = 0 then
    if st1.closed then none
    else some { st1 with closed := true, closeEvents := st1.closeEvents + 1 }
  else some st1

/-- The loop `for _, e := range entries { if e.IsDir() { active.Add(1); jobs <- ... } }`.
The counter is incremented first; the send then panics (`none`) if the
channel is already closed. -/
def enqueueSubdirs (parent : String) (entries : List (String × FSNode))
    (st : ScanState) : Option ScanState :=
  match entries with
  | [] => some st
  | (name, node) :: rest =>
    if isDir node then
      let a := st.active + 1
      let st1 : ScanState := { st with active := a, minActive := min st.minActive a }
      if st1.closed then none
      else
        enqueueSubdirs parent rest
          { st1 with queue := st1.queue ++ [{ path := pathJoin parent name, node := node }] }
    else enqueueSubdirs parent rest st

/-- Outcome of a run.  `done` carries the Go return value `(results, err)` —
the function's only `return` statement is `return results, nil` — plus the
final state.  `deadlock`: the queue is empty but not closed, so the single
worker blocks on receive forever and `wg.Wait()` never returns.
`panicked`: a goroutine panicked (which crashes the process). -/
inductive ScanOutcome where
  | done (results : List String) (err : Option String) (final : ScanState)
  | deadlock (final : ScanState)
  | panicked (msg : String) (final : ScanState)
  | outOfFuel

/-- One worker's `for j := range jobs` loop, fuel-indexed.  Each iteration is
the body of `worker` in `src/find-repos.go`: read the directory (error ⇒
decrement and continue), look for `.git` (found ⇒ record the path, enqueue
nothing), otherwise enqueue every subdirectory, then decrement and close
the channel on a zero transition. -/
def scanLoop : Nat → ScanState → ScanOutcome
  | 0, _ => ScanOutcome.outOfFuel
  | Nat.succ fuel, st =>
    match st.queue with
    | [] =>
      if st.closed then ScanOutcome.done st.results none st
      else ScanOutcome.deadlock st
    | j :: rest =>
      let st1 : ScanState := { st with queue := rest }
      match readDir j.node with
      | none =>
        match decAndClose st1 with
        | none => ScanOutcome.panicked closeClosedMsg st1
        | some st2 => scanLoop fuel st2
      | some entries =>
        if hasGitDir entries then
          let st2 : ScanState := { st1 with results := st1.results ++ [j.path] }
          match decAndClose st2 with
          | none => ScanOutcome.panicked closeClosedMsg st2
          | some st3 => scanLoop fuel st3
        else
          match enqueueSubdirs j.path entries st1 with
          | none => ScanOutcome.panicked sendClosedMsg st1
          | some st2 =>
            match decAndClose st2 with
            | none => ScanOutcome.panicked closeClosedMsg st2
            | some st3 => scanLoop fuel st3

/-- Initial state: `jobs <- job{root}` is executed by the caller without
touching `active` (this seed send is the only unaccounted job). -/
def initState (root : String) (t : FSNode) : ScanState :=
  { queue := [{ path := root, node := t }], active := 0, closed := false,
    results := [], minActive := 0, closeEvents := 0 }

/-- `FindGitReposParallel root t`, run under the single-worker schedule with
the given fuel. -/
def FindGitReposParallel (root : String) (t : FSNode) (fuel : Nat) : ScanOutcome :=
  scanLoop fuel (initState root t)

/-! ### Concrete trees used as inputs -/

def rootR : String := "/r"

/-- A root directory that is itself a repository: sole entry is `.git`. -/
def tRepoRoot : FSNode := FSNode.dir (some [(dotGit, FSNode.dir (some []))])

/-- A repository root that also contains a file entry. -/
def tRepoRootFile : FSNode :=
  FSNode.dir (some [(dotGit, FSNode.dir (some [])), ("x", FSNode.file)])

/-- An empty, readable directory. -/
def tEmpty : FSNode := FSNode.dir (some [])

/-- `/r/a/.git`: the only repository is one level below the root. -/
def tDepth2 : FSNode :=
  FSNode.dir (some [("a", FSNode.dir (some [(dotGit, FSNode.dir (some []))]))])

/-- `/r/a/b/.git`: the only repository is two levels below the root. -/
def tChain : FSNode :=
  FSNode.dir (some [("a", FSNode.dir (some
    [("b", FSNode.dir (some [(dotGit, FSNode.dir (some []))]))]))])

/-- `/r/a` unreadable, `/r/b/c/.git` a repository in a sibling branch. -/
def tSibUnreadable : FSNode :=
  FSNode.dir (some [("a", FSNode.dir none),
    ("b", FSNode.dir (some [("c", FSNode.dir (some [(dotGit, FSNode.dir (some []))]))]))])

/-- Same tree with `/r/a` readable (one empty subdirectory `/r/a/d`). -/
def tSibReadable : FSNode :=
  FSNode.dir (some [("a", FSNode.dir (some [("d", FSNode.dir (some []))])),
    ("b", FSNode.dir (some [("c", FSNode.dir (some [(dotGit, FSNode.dir (some []))]))]))])

/-! ## Scanner theorems -/

/-- Every `done` outcome of the scan loop carries a `nil` error: the only
`return` statement of `FindGitReposParallel` is `return results, nil`. -/
theorem scanLoop_done_err_none (fuel : Nat) :
    ∀ (st : ScanState) (rs : List String) (e : Option String) (stF : ScanState),
      scanLoop fuel st = ScanOutcome.done rs e stF → e = none := by
  induction fuel with
  | zero =>
    intro st rs e stF h
    exact ScanOutcome.noConfusion h
  | succ n ih =>
    intro st rs e stF h
    simp only [scanLoop] at h
    repeat' split at h
    all_goals
      first
        | exact ScanOutcome.noConfusion h
        | (injection h with h1 h2 h3; exact h2.symm)
        | exact ih _ _ _ _ h

/-- Claim C1: the scanner is claimed to return, for every directory tree and
every worker count, exactly the set of top-most repository roots.  It does
not: the root job is seeded without incrementing the `active` counter, so
(a) when the root directory is itself a repository the counter drops to `-1`,
the channel is never closed, and the scan deadlocks instead of returning
the singleton result, and (b) on the tree `/r/a/b/.git` the channel is
closed while job `/r/a` is still buffered, and processing `/r/a` then
panics sending its child job on the closed channel. -/
theorem c1_scanner_wrong_result_code_bug :
    FindGitReposParallel rootR tRepoRoot 10 =
      ScanOutcome.deadlock
        { queue := [], active := -1, closed := false, results := [rootR],
          minActive := -1, closeEvents := 0 } ∧
    FindGitReposParallel rootR tChain 10 =
      ScanOutcome.panicked sendClosedMsg
        { queue := [], active := 0, closed := true, results := [],
          minActive := 0, closeEvents := 1 } := by
  exact ⟨rfl, rfl⟩

/-- Claim C2: the Active Counter is claimed never to go negative, and the
channel is claimed to close exactly once, at the zero transition.  On a root
directory that is itself a repository the only job (the seeded root, which
was never counted) decrements the counter to `-1` (`minActive = -1`), and
the channel is never closed (`closeEvents = 0`) although the scan is over:
the run is stuck in `deadlock`. -/
theorem c2_counter_goes_negative_code_bug :
    FindGitReposParallel rootR tRepoRootFile 10 =
      ScanOutcome.deadlock
        { queue := [], active := -1, closed := false, results := [rootR],
          minActive := -1, closeEvents := 0 } := by
  exact rfl

/-- Claim C3: the scanner is claimed to terminate on every finite tree with
the counter at zero and no runnable worker left.  On an empty root directory
it never returns (queue empty, channel never closed, every worker blocked
on receive — a task leak), and even on the tree `/r/a/.git`, where it does
return the right result, the final counter value is `-1`, not `0`. -/
theorem c3_scanner_nontermination_code_bug :
    FindGitReposParallel rootR tEmpty 10 =
      ScanOutcome.deadlock
        { queue := [], active := -1, closed := false, results := [],
          minActive := -1, closeEvents := 0 } ∧
    FindGitReposParallel rootR tDepth2 10 =
      ScanOutcome.done [pathJoin rootR "a"] none
        { queue := [], active := -1, closed := true, results := [pathJoin rootR "a"],
          minActive := -1, closeEvents := 1 } := by
  exact ⟨rfl, rfl⟩

/-- Claim C8: an unreadable directory is claimed never to abort the overall
scan and to affect only its own subtree.  In the tree with `/r/a` unreadable
and a repository at `/r/b/c`, the unreadable directory's decrement drives
the counter to zero and closes the channel early; the sibling job `/r/b`
then panics sending a child job on the closed channel, aborting the whole
scan with no results.  With `/r/a` readable instead (containing one empty
subdirectory) the same sibling branch completes and reports `/r/b/c`. -/
theorem c8_unreadable_dir_aborts_scan_code_bug :
    FindGitReposParallel rootR tSibUnreadable 10 =
      ScanOutcome.panicked sendClosedMsg
        { queue := [], active := 0, closed := true, results := [],
          minActive := 0, closeEvents := 1 } ∧
    FindGitReposParallel rootR tSibReadable 12 =
      ScanOutcome.done [pathJoin (pathJoin rootR "b") "c"] none
        { queue := [], active := -1, closed := true,
          results := [pathJoin (pathJoin rootR "b") "c"],
          minActive := -1, closeEvents := 1 } := by
  exact ⟨rfl, rfl⟩

/-- Claim C10: whenever `FindGitReposParallel` returns, its error result is
`nil`: the function's only return statement is `return results, nil`, so no
failure is ever reported through the error value, for any tree and any
amount of fuel. -/
theorem c10_error_always_nil (root : String) (t : FSNode) (fuel : Nat)
    (rs : List String) (e : Option String) (stF : ScanState)
    (h : FindGitReposParallel root t fuel = ScanOutcome.done rs e stF) : e = none :=
  scanLoop_done_err_none fuel (initState root t) rs e stF h

/-- Witness for C10 at the tree `/r/a/.git`, whose scan does return. -/
theorem c10_error_always_nil_witness : (none : Option String) = none :=
  c10_error_always_nil rootR tDepth2 10 [pathJoin rootR "a"] none
    { queue := [], active := -1, closed := true, results := [pathJoin rootR "a"],
      minActive := -1, closeEvents := 1 } rfl

/-! ## Executor model (`pullGitRepos` in `src/main.go`)

The external `git` binary is an oracle.  `pullGitRepos` issues at most four
distinct command invocations per repository — the tier-0 pull, the tier-1
rebase pull, the tier-2 hard reset, and the tier-2 retry pull — each an
independent external event, so the oracle has one outcome field per
invocation (`none` = exit status 0, `some e` = failure with error `e`). -/

structure GitEnv where
  pull0 : String → Option String
  rebase1 : String → Option String
  reset2 : String → Option String
  pull2 : String → Option String

/-- External commands actually spawned, recording the `-C` directory
argument. `pull` is `git -C dir pull --depth=1` (the body of `runCommand`),
`rebase` is `git -C dir pull --rebase --depth=1`, `reset` is
`git -C dir reset --hard`. -/
inductive Cmd where
  | pull (dir : String)
  | rebase (dir : String)
  | reset (dir : String)
deriving DecidableEq

/-- The `slog` calls of `pullGitRepos` and `runCommand`, in order of
appearance in the source. -/
inductive LogEvent where
  | infoPulling (dir : String)
  | infoPulled (dir : String)
  | errPull (dir err : String)
  | infoRetryRebase (dir err : String)
  | errRebase (dir err : String)
  | infoRebaseOk (dir : String)
  | infoRetryReset (dir err : String)
  | errReset (dir err : String)
  | errPullAfterReset (dir err : String)
  | infoPullAfterResetOk (dir : String)
deriving DecidableEq

def gitSuffix : String := "/.git"

/-- `strings.TrimSuffix`. -/
def trimSuffix (s suf : String) : String :=
  if s.endsWith suf then s.dropRight suf.length else s

/-- `fmt.Errorf` wrapping in `runCommand`. -/
def wrapPull (dir e : String) : String := "error pulling " ++ dir ++ ", " ++ e

/-- `runCommand`: trim a `/.git` suffix, run `git -C dir pull --depth=1`,
return the wrapped error on failure; also the spawned command and its
`slog.Info` lines. -/
def runCommand (pullFn : String → Option String) (dir : String) :
    Option String × List Cmd × List LogEvent :=
  let d := trimSuffix dir gitSuffix
  match pullFn d with
  | some e => (some (wrapPull d e), [Cmd.pull d], [LogEvent.infoPulling d])
  | none => (none, [Cmd.pull d], [LogEvent.infoPulling d, LogEvent.infoPulled d])

/-- Output of one tier: the `failedRepos` map afterwards (an association
list keyed by the loop's `dir`), the external commands it spawned, and its
log, each in iteration order. -/
structure TierOut where
  failed : List (String × String)
  cmds : List Cmd
  log : List LogEvent

/-- Tier 0: one goroutine per repository runs `runCommand`; a failure
stores the wrapped error under the goroutine's `dir` and logs it.  The
goroutines are concurrent; the list order stands for one completion order,
and nothing proved below depends on it. -/
def tier0 (env : GitEnv) : List String → TierOut
  | [] => { failed := [], cmds := [], log := [] }
  | d :: rest =>
    let o := tier0 env rest
    let r := runCommand env.pull0 d
    match r.1 with
    | some e =>
      { failed := (d, e) :: o.failed, cmds := r.2.1 ++ o.cmds,
        log := r.2.2 ++ (LogEvent.errPull d e :: o.log) }
    | none =>
      { failed := o.failed, cmds := r.2.1 ++ o.cmds, log := r.2.2 ++ o.log }

/-- Tier 1: `for dir, err := range failedRepos`, sequentially retry with
`git -C dir pull --rebase --depth=1`; on success delete the entry, on
failure only log (the stored error is not touched). -/
def tier1 (env : GitEnv) : List (String × String) → TierOut
  | [] => { failed := [], cmds := [], log := [] }
  | (d, e) :: rest =>
    let o := tier1 env rest
    match env.rebase1 d with
    | some e2 =>
      { failed := (d, e) :: o.failed, cmds := Cmd.rebase d :: o.cmds,
        log := LogEvent.infoRetryRebase d e :: LogEvent.errRebase d e2 :: o.log }
    | none =>
      { failed := o.failed, cmds := Cmd.rebase d :: o.cmds,
        log := LogEvent.infoRetryRebase d e :: LogEvent.infoRebaseOk d :: o.log }

/-- Tier 2: `for dir, err := range failedRepos` (the map left by tier 1),
sequentially: `git -C dir reset --hard`; if the reset fails, log and
`continue` (no retry); otherwise `runCommand(dir)` again, deleting the
entry on success and only logging on failure. -/
def tier2 (env : GitEnv) : List (String × String) → TierOut
  | [] => { failed := [], cmds := [], log := [] }
  | (d, e) :: rest =>
    let o := tier2 env rest
    match env.reset2 d with
    | some e2 =>
      { failed := (d, e) :: o.failed, cmds := Cmd.reset d :: o.cmds,
        log := LogEvent.infoRetryReset d e :: LogEvent.errReset d e2 :: o.log }
    | none =>
      let r := runCommand env.pull2 d
      match r.1 with
      | some e3 =>
        { failed := (d, e) :: o.failed, cmds := Cmd.reset d :: (r.2.1 ++ o.cmds),
          log := LogEvent.infoRetryReset d e ::
            (r.2.2 ++ (LogEvent.errPullAfterReset d e3 :: o.log)) }
      | none =>
        { failed := o.failed, cmds := Cmd.reset d :: (r.2.1 ++ o.cmds),
          log := LogEvent.infoRetryReset d e ::
            (r.2.2 ++ (LogEvent.infoPullAfterResetOk d :: o.log)) }

/-- The `failedRepos` map after tier 0. -/
def failed0 (env : GitEnv) (list : List String) : List (String × String) :=
  (tier0 env list).failed

/-- The `failedRepos` map after tier 1. -/
def failed1 (env : GitEnv) (list : List String) : List (String × String) :=
  (tier1 env (failed0 env list)).failed

/-- The `failedRepos` map after tier 2 (the StillFailing set). -/
def failed2 (env : GitEnv) (list : List String) : List (String × String) :=
  (tier2 env (failed1 env list)).failed

/-- The commands spawned by the tier-1 loop. -/
def tier1cmds (env : GitEnv) (list : List String) : List Cmd :=
  (tier1 env (failed0 env list)).cmds

/-- The commands spawned by the tier-2 loop. -/
def tier2cmds (env : GitEnv) (list : List String) : List Cmd :=
  (tier2 env (failed1 env list)).cmds

/-- Final outcome of `pullGitRepos`.  `exited` is `os.Exit(1)` from the
signal branch; `completed` carries the final `failedRepos` map, the full
command trace, and the full log. -/
inductive PullOutcome where
  | exited (code : Nat)
  | completed (failed : List (String × String)) (cmds : List Cmd) (log : List LogEvent)
deriving DecidableEq

/-- `pullGitRepos`.  Its cancellation is
`select { case <-c: os.Exit(1); default: wg.Wait() }`: a `select` with a
`default` branch does not block, so the signal channel is polled exactly
once.  `sigPending` says whether an interrupt is already buffered in `c`
at that moment; `sigDuring` says whether one arrives at any later point
(while `wg.Wait()` or the tiers run).  A late signal sits unread in the
buffered channel and never influences the run, which the definition
reflects by not inspecting `sigDuring`. -/
def pullGitRepos (env : GitEnv) (list : List String)
    (sigPending sigDuring : Bool) : PullOutcome :=
  if sigPending then PullOutcome.exited 1
  else
    PullOutcome.completed (failed2 env list)
      ((tier0 env list).cmds ++ tier1cmds env list ++ tier2cmds env list)
      ((tier0 env list).log ++ (tier1 env (failed0 env list)).log ++
        (tier2 env (failed1 env list)).log)

/-- The `flags.pull` branch of `main`: `pullGitRepos(list); os.Exit(0)` —
the exit code after a completed run is 0 no matter what `failedRepos`
holds; only the signal branch exits with 1. -/
def mainPullExitCode (env : GitEnv) (list : List String)
    (sigPending sigDuring : Bool) : Nat :=
  match pullGitRepos env list sigPending sigDuring with
  | PullOutcome.exited code => code
  | PullOutcome.completed _ _ _ => 0

/-- Keys of the `failedRepos` association list. -/
def keys (m : List (String × String)) : List String := m.map Prod.fst

/-! ### Concrete repositories and oracles used as inputs -/

def dirA : String := "a"
def dirB : String := "b"
def dirS : String := "s"
def dirZ : String := "z"
def errB0 : String := "eb"
def errS0 : String := "es"
def errZ0 : String := "ez"
def errS1 : String := "rs"
def errZ1 : String := "rz"
def errZ2 : String := "tz"

/-- Four repositories: `a` succeeds at tier 0; `b` fails tier 0 and
recovers at tier 1; `s` fails tiers 0 and 1 and recovers at tier 2;
`z` fails everything (its tier-2 reset itself fails). -/
def listW : List String := [dirA, dirB, dirS, dirZ]

def envW : GitEnv :=
  { pull0 := fun d =>
      if d == dirB then some errB0
      else if d == dirS then some errS0
      else if d == dirZ then some errZ0
      else none,
    rebase1 := fun d =>
      if d == dirS then some errS1 else if d == dirZ then some errZ1 else none,
    reset2 := fun d => if d == dirZ then some errZ2 else none,
    pull2 := fun _ => none }

def errNet : String := "network error"

/-- Five repositories whose tier-0 tasks are all outstanding when a signal
arrives: every attempt fails with a network error. -/
def listC4 : List String := ["r1", "r2", "r3", "r4", "r5"]

def envC4 : GitEnv :=
  { pull0 := fun _ => some errNet, rebase1 := fun _ => some errNet,
    reset2 := fun _ => some errNet, pull2 := fun _ => some errNet }

/-! ### Helper lemmas about the tiers -/

theorem keys_cons (p : String × String) (m : List (String × String)) :
    keys (p :: m) = p.1 :: keys m := rfl

theorem runCommand_cmds (f : String → Option String) (d : String) :
    (runCommand f d).2.1 = [Cmd.pull (trimSuffix d gitSuffix)] := by
  simp only [runCommand]
  cases f (trimSuffix d gitSuffix) <;> rfl

theorem mem_keys_iff (m : List (String × String)) (d : String) :
    d ∈ keys m ↔ ∃ e, (d, e) ∈ m := by
  constructor
  · intro h
    rcases List.mem_map.mp h with ⟨⟨a, b⟩, hp, hfst⟩
    cases hfst
    exact ⟨b, hp⟩
  · rintro ⟨e, he⟩
    exact List.mem_map.mpr ⟨(d, e), he, rfl⟩

/-- An entry is in the map after tier 0 iff the repository is in the list
and its tier-0 pull failed with that (wrapped) error. -/
theorem mem_tier0_failed (env : GitEnv) (l : List String) (d e : String) :
    (d, e) ∈ (tier0 env l).failed ↔ d ∈ l ∧ (runCommand env.pull0 d).1 = some e := by
  induction l with
  | nil => simp [tier0]
  | cons x rest ih =>
    cases hx : (runCommand env.pull0 x).1 with
    | some e2 =>
      simp only [tier0, hx, List.mem_cons, ih, Prod.mk.injEq]
      constructor
      · rintro (⟨rfl, rfl⟩ | ⟨hd, he⟩)
        · exact ⟨Or.inl rfl, hx⟩
        · exact ⟨Or.inr hd, he⟩
      · rintro ⟨rfl | hd, he⟩
        · rw [hx] at he
          exact Or.inl ⟨rfl, (Option.some_inj.mp he).symm⟩
        · exact Or.inr ⟨hd, he⟩
    | none =>
      simp only [tier0, hx, List.mem_cons, ih]
      constructor
      · rintro ⟨hd, he⟩
        exact ⟨Or.inr hd, he⟩
      · rintro ⟨rfl | hd, he⟩
        · rw [hx] at he
          exact Option.noConfusion he
        · exact ⟨hd, he⟩

/-- Tier 1 keeps an entry (with its stored error untouched) iff the rebase
for that repository failed. -/
theorem mem_tier1_failed (env : GitEnv) (m : List (String × String)) (d e : String) :
    (d, e) ∈ (tier1 env m).failed ↔ (d, e) ∈ m ∧ (env.rebase1 d).isSome = true := by
  induction m with
  | nil => simp [tier1]
  | cons p rest ih =>
    rcases p with ⟨d2, e2⟩
    cases hr : env.rebase1 d2 with
    | some e3 =>
      simp only [tier1, hr, List.mem_cons, ih, Prod.mk.injEq]
      constructor
      · rintro (⟨rfl, rfl⟩ | ⟨hd, he⟩)
        · exact ⟨Or.inl ⟨rfl, rfl⟩, by rw [hr]; rfl⟩
        · exact ⟨Or.inr hd, he⟩
      · rintro ⟨⟨rfl, rfl⟩ | hd, he⟩
        · exact Or.inl ⟨rfl, rfl⟩
        · exact Or.inr ⟨hd, he⟩
    | none =>
      simp only [tier1, hr, List.mem_cons, ih]
      constructor
      · rintro ⟨hd, he⟩
        exact ⟨Or.inr hd, he⟩
      · rintro ⟨⟨rfl, rfl⟩ | hd, he⟩
        · rw [hr] at he
          exact Bool.noConfusion he
        · exact ⟨hd, he⟩

/-- Tier 2 keeps an entry (error untouched) iff the hard reset failed or
the pull after the reset failed. -/
theorem mem_tier2_failed (env : GitEnv) (m : List (String × String)) (d e : String) :
    (d, e) ∈ (tier2 env m).failed ↔
      (d, e) ∈ m ∧
        ((env.reset2 d).isSome = true ∨ ((runCommand env.pull2 d).1).isSome = true) := by
  induction m with
  | nil => simp [tier2]
  | cons p rest ih =>
    rcases p with ⟨d2, e2⟩
    cases hr : env.reset2 d2 with
    | some e3 =>
      simp only [tier2, hr, List.mem_cons, ih, Prod.mk.injEq]
      constructor
      · rintro (⟨rfl, rfl⟩ | ⟨hd, he⟩)
        · exact ⟨Or.inl ⟨rfl, rfl⟩, Or.inl (by rw [hr]; rfl)⟩
        · exact ⟨Or.inr hd, he⟩
      · rintro ⟨⟨rfl, rfl⟩ | hd, he⟩
        · exact Or.inl ⟨rfl, rfl⟩
        · exact Or.inr ⟨hd, he⟩
    | none =>
      cases hp : (runCommand env.pull2 d2).1 with
      | some e3 =>
        simp only [tier2, hr, hp, List.mem_cons, ih, Prod.mk.injEq]
        constructor
        · rintro (⟨rfl, rfl⟩ | ⟨hd, he⟩)
          · exact ⟨Or.inl ⟨rfl, rfl⟩, Or.inr (by rw [hp]; rfl)⟩
          · exact ⟨Or.inr hd, he⟩
        · rintro ⟨⟨rfl, rfl⟩ | hd, he⟩
          · exact Or.inl ⟨rfl, rfl⟩
          · exact Or.inr ⟨hd, he⟩
      | none =>
        simp only [tier2, hr, hp, List.mem_cons, ih]
        constructor
        · rintro ⟨hd, he⟩
          exact ⟨Or.inr hd, he⟩
        · rintro ⟨⟨rfl, rfl⟩ | hd, he⟩
          · rcases he with h1 | h1
            · rw [hr] at h1
              exact Bool.noConfusion h1
            · rw [hp] at h1
              exact Bool.noConfusion h1
          · exact ⟨hd, he⟩

/-- Tier 1 spawns the rebase command exactly for the keys of its map. -/
theorem rebase_mem_tier1_cmds (env : GitEnv) (m : List (String × String)) (d : String) :
    Cmd.rebase d ∈ (tier1 env m).cmds ↔ d ∈ keys m := by
  induction m with
  | nil => simp [tier1, keys]
  | cons p rest ih =>
    rcases p with ⟨d2, e2⟩
    cases hr : env.rebase1 d2 <;>
      simp [tier1, hr, keys_cons, List.mem_cons, ih]

/-- Tier 2 spawns the reset command exactly for the keys of its map. -/
theorem reset_mem_tier2_cmds (env : GitEnv) (m : List (String × String)) (d : String) :
    Cmd.reset d ∈ (tier2 env m).cmds ↔ d ∈ keys m := by
  induction m with
  | nil => simp [tier2, keys]
  | cons p rest ih =>
    rcases p with ⟨d2, e2⟩
    cases hr : env.reset2 d2 with
    | some e3 => simp [tier2, hr, keys_cons, List.mem_cons, ih]
    | none =>
      cases hp : (runCommand env.pull2 d2).1 <;>
        simp [tier2, hr, hp, runCommand_cmds, keys_cons, List.mem_cons, ih]

theorem keys_tier0_sublist (env : GitEnv) (l : List String) :
    (keys (tier0 env l).failed).Sublist l := by
  induction l with
  | nil => simp [tier0, keys]
  | cons x rest ih =>
    cases hx : (runCommand env.pull0 x).1 with
    | some e2 =>
      simp only [tier0, hx, keys_cons]
      exact List.Sublist.cons₂ x ih
    | none =>
      simp only [tier0, hx]
      exact List.Sublist.cons x ih

theorem keys_tier1_sublist (env : GitEnv) (m : List (String × String)) :
    (keys (tier1 env m).failed).Sublist (keys m) := by
  induction m with
  | nil => simp [tier1, keys]
  | cons p rest ih =>
    rcases p with ⟨d2, e2⟩
    cases hr : env.rebase1 d2 with
    | some e3 =>
      simp only [tier1, hr, keys_cons]
      exact List.Sublist.cons₂ d2 ih
    | none =>
      simp only [tier1, hr, keys_cons]
      exact List.Sublist.cons d2 ih

theorem keys_failed1_nodup (env : GitEnv) (list : List String) (hnd : list.Nodup) :
    (keys (failed1 env list)).Nodup := by
  have h1 : (keys (failed1 env list)).Sublist list :=
    (keys_tier1_sublist env (failed0 env list)).trans (keys_tier0_sublist env list)
  exact List.Nodup.sublist h1 hnd

theorem mem_keys_failed0 (env : GitEnv) (list : List String) (d : String) :
    d ∈ keys (failed0 env list) ↔
      d ∈ list ∧ ((runCommand env.pull0 d).1).isSome = true := by
  rw [mem_keys_iff]
  constructor
  · rintro ⟨e, he⟩
    rcases (mem_tier0_failed env list d e).mp he with ⟨h1, h2⟩
    exact ⟨h1, by rw [h2]; rfl⟩
  · rintro ⟨h1, h2⟩
    rcases Option.isSome_iff_exists.mp h2 with ⟨e, he⟩
    exact ⟨e, (mem_tier0_failed env list d e).mpr ⟨h1, he⟩⟩

theorem mem_keys_failed1 (env : GitEnv) (list : List String) (d : String) :
    d ∈ keys (failed1 env list) ↔
      d ∈ list ∧ ((runCommand env.pull0 d).1).isSome = true ∧
        (env.rebase1 d).isSome = true := by
  rw [mem_keys_iff]
  constructor
  · rintro ⟨e, he⟩
    rcases (mem_tier1_failed env (failed0 env list) d e).mp he with ⟨h1, h2⟩
    rcases (mem_tier0_failed env list d e).mp h1 with ⟨h3, h4⟩
    exact ⟨h3, by rw [h4]; rfl, h2⟩
  · rintro ⟨h1, h2, h3⟩
    rcases Option.isSome_iff_exists.mp h2 with ⟨e, he⟩
    exact ⟨e, (mem_tier1_failed env (failed0 env list) d e).mpr
      ⟨(mem_tier0_failed env list d e).mpr ⟨h1, he⟩, h3⟩⟩

/-- The command segment tier 2 runs for one repository: the hard reset, then
(only if the reset succeeded) the standard pull again. -/
def tier2seg (env : GitEnv) (d : String) : List Cmd :=
  match env.reset2 d with
  | some _ => [Cmd.reset d]
  | none => [Cmd.reset d, Cmd.pull (trimSuffix d gitSuffix)]

theorem tier2_cmds_seg (env : GitEnv) (m : List (String × String)) (d e : String)
    (h : (d, e) ∈ m) :
    ∃ pre post, (tier2 env m).cmds = pre ++ (tier2seg env d ++ post) := by
  induction m with
  | nil => cases h
  | cons p rest ih =>
    rcases p with ⟨d2, e2⟩
    rcases List.mem_cons.mp h with heq | hmem
    · injection heq with hd he
      subst hd
      cases hr : env.reset2 d with
      | some e3 =>
        refine ⟨[], (tier2 env rest).cmds, ?_⟩
        simp [tier2, hr, tier2seg]
      | none =>
        cases hp : (runCommand env.pull2 d).1 with
        | some e3 =>
          refine ⟨[], (tier2 env rest).cmds, ?_⟩
          simp [tier2, hr, hp, tier2seg, runCommand_cmds]
        | none =>
          refine ⟨[], (tier2 env rest).cmds, ?_⟩
          simp [tier2, hr, hp, tier2seg, runCommand_cmds]
    · rcases ih hmem with ⟨pre, post, hc⟩
      cases hr : env.reset2 d2 with
      | some e3 =>
        refine ⟨Cmd.reset d2 :: pre, post, ?_⟩
        simp [tier2, hr, hc]
      | none =>
        cases hp : (runCommand env.pull2 d2).1 with
        | some e3 =>
          refine ⟨Cmd.reset d2 :: (Cmd.pull (trimSuffix d2 gitSuffix) :: pre), post, ?_⟩
          simp [tier2, hr, hp, runCommand_cmds, hc]
        | none =>
          refine ⟨Cmd.reset d2 :: (Cmd.pull (trimSuffix d2 gitSuffix) :: pre), post, ?_⟩
          simp [tier2, hr, hp, runCommand_cmds, hc]

/-- With distinct keys, tier 2 spawns the destructive reset exactly once per
key of its map and never for anything else. -/
theorem tier2_count_reset (env : GitEnv) (m : List (String × String)) (d : String)
    (hnd : (keys m).Nodup) :
    (tier2 env m).cmds.count (Cmd.reset d) = if d ∈ keys m then 1 else 0 := by
  induction m with
  | nil => simp [tier2, keys]
  | cons p rest ih =>
    rcases p with ⟨d2, e2⟩
    rw [keys_cons] at hnd
    have hnd2 : (keys rest).Nodup := (List.nodup_cons.mp hnd).2
    have hd2 : d2 ∉ keys rest := (List.nodup_cons.mp hnd).1
    by_cases hdd : d = d2
    · subst hdd
      have hc0 : (tier2 env rest).cmds.count (Cmd.reset d) = 0 := by
        rw [ih hnd2, if_neg hd2]
      cases hr : env.reset2 d with
      | some e3 =>
        simp [tier2, hr, keys_cons, List.count_cons, hc0]
      | none =>
        cases hp : (runCommand env.pull2 d).1 with
        | some e3 => simp [tier2, hr, hp, runCommand_cmds, keys_cons, List.count_cons, hc0]
        | none => simp [tier2, hr, hp, runCommand_cmds, keys_cons, List.count_cons, hc0]
    · cases hr : env.reset2 d2 with
      | some e3 =>
        simp [tier2, hr, keys_cons, List.count_cons, ih hnd2, hdd, List.mem_cons]
      | none =>
        cases hp : (runCommand env.pull2 d2).1 with
        | some e3 =>
          simp [tier2, hr, hp, runCommand_cmds, keys_cons, List.count_cons, ih hnd2, hdd,
            List.mem_cons]
        | none =>
          simp [tier2, hr, hp, runCommand_cmds, keys_cons, List.count_cons, ih hnd2, hdd,
            List.mem_cons]

/-- Every repository kept by tier 2 has an error line (`errReset` or
`errPullAfterReset`) in tier 2's own log. -/
theorem tier2_failed_logged (env : GitEnv) (m : List (String × String)) (d e : String)
    (h : (d, e) ∈ (tier2 env m).failed) :
    (∃ e2, LogEvent.errReset d e2 ∈ (tier2 env m).log) ∨
    (∃ e2, LogEvent.errPullAfterReset d e2 ∈ (tier2 env m).log) := by
  induction m with
  | nil => simp [tier2] at h
  | cons p rest ih =>
    rcases p with ⟨d2, e2⟩
    cases hr : env.reset2 d2 with
    | some e3 =>
      simp only [tier2, hr] at h ⊢
      rcases List.mem_cons.mp h with heq | hmem
      · injection heq with hd he
        subst hd
        exact Or.inl ⟨e3, List.mem_cons_of_mem _ (List.mem_cons_self _ _)⟩
      · rcases ih hmem with ⟨e4, h4⟩ | ⟨e4, h4⟩
        · exact Or.inl ⟨e4, List.mem_cons_of_mem _ (List.mem_cons_of_mem _ h4)⟩
        · exact Or.inr ⟨e4, List.mem_cons_of_mem _ (List.mem_cons_of_mem _ h4)⟩
    | none =>
      cases hp : (runCommand env.pull2 d2).1 with
      | some e3 =>
        simp only [tier2, hr, hp] at h ⊢
        rcases List.mem_cons.mp h with heq | hmem
        · injection heq with hd he
          subst hd
          exact Or.inr ⟨e3, List.mem_cons_of_mem _
            (List.mem_append_right _ (List.mem_cons_self _ _))⟩
        · rcases ih hmem with ⟨e4, h4⟩ | ⟨e4, h4⟩
          · exact Or.inl ⟨e4, List.mem_cons_of_mem _
              (List.mem_append_right _ (List.mem_cons_of_mem _ h4))⟩
          · exact Or.inr ⟨e4, List.mem_cons_of_mem _
              (List.mem_append_right _ (List.mem_cons_of_mem _ h4))⟩
      | none =>
        simp only [tier2, hr, hp] at h ⊢
        rcases ih h with ⟨e4, h4⟩ | ⟨e4, h4⟩
        · exact Or.inl ⟨e4, List.mem_cons_of_mem _
            (List.mem_append_right _ (List.mem_cons_of_mem _ h4))⟩
        · exact Or.inr ⟨e4, List.mem_cons_of_mem _
            (List.mem_append_right _ (List.mem_cons_of_mem _ h4))⟩

/-! ## Executor claim theorems -/

/-- Counterexample to claim C4: with five repositories' tier-0 tasks
outstanding and no interrupt pending at the moment the `select` polls its
channel, an interrupt arriving during the wait (`sigDuring = true`) does
not make the executor stop waiting — the run is not `os.Exit(1)` but the
full completed run, identical to the run with no interrupt at all.  The
`select` has a `default` branch, so it checks the signal once and then
blocks in `wg.Wait()` with the signal channel never read again. -/
theorem c4_counterexample :
    pullGitRepos envC4 listC4 false true ≠ PullOutcome.exited 1 ∧
    pullGitRepos envC4 listC4 false true = pullGitRepos envC4 listC4 false false :=
  ⟨fun h => PullOutcome.noConfusion h, rfl⟩

/-- Claim C4, amended: the interrupt check and the wait are not one atomic
wait.  The executor polls the signal channel exactly once, before waiting:
if an interrupt is already pending at that poll it exits the process with
code 1 immediately (without waiting for the tasks); an interrupt arriving
at any later point is missed — the run proceeds exactly as if no interrupt
arrived, through the full wait and all tiers. -/
theorem c4_check_then_block (env : GitEnv) (list : List String) (sigD : Bool) :
    pullGitRepos env list true sigD = PullOutcome.exited 1 ∧
    pullGitRepos env list false sigD = pullGitRepos env list false false :=
  ⟨rfl, rfl⟩

/-- Claim C5: escalation is monotone.  A repository whose tier-0 pull
succeeds is not in the map tier 1 iterates, gets no rebase command, is not
in the map tier 2 iterates, and gets no reset command; a repository whose
tier-1 rebase succeeds is not in the map tier 2 iterates and gets no reset
command; conversely a rebase command implies a failed tier-0 pull, and a
reset command implies a failed tier-0 pull and a failed tier-1 rebase. -/
theorem c5_monotone_escalation (env : GitEnv) (list : List String) (d : String) :
    ((runCommand env.pull0 d).1 = none →
      d ∉ keys (failed0 env list) ∧ Cmd.rebase d ∉ tier1cmds env list ∧
        d ∉ keys (failed1 env list) ∧ Cmd.reset d ∉ tier2cmds env list) ∧
    (env.rebase1 d = none →
      d ∉ keys (failed1 env list) ∧ Cmd.reset d ∉ tier2cmds env list) ∧
    (Cmd.rebase d ∈ tier1cmds env list →
      d ∈ list ∧ ((runCommand env.pull0 d).1).isSome = true) ∧
    (Cmd.reset d ∈ tier2cmds env list →
      d ∈ list ∧ ((runCommand env.pull0 d).1).isSome = true ∧
        (env.rebase1 d).isSome = true) := by
  have h1 : Cmd.rebase d ∈ tier1cmds env list ↔ d ∈ keys (failed0 env list) :=
    rebase_mem_tier1_cmds env (failed0 env list) d
  have h2 : Cmd.reset d ∈ tier2cmds env list ↔ d ∈ keys (failed1 env list) :=
    reset_mem_tier2_cmds env (failed1 env list) d
  refine ⟨?_, ?_, ?_, ?_⟩
  · intro h0
    have hk0 : d ∉ keys (failed0 env list) := by
      intro hmem
      rcases (mem_keys_failed0 env list d).mp hmem with ⟨_, hs⟩
      rw [h0] at hs
      exact Bool.noConfusion hs
    have hk1 : d ∉ keys (failed1 env list) := by
      intro hmem
      rcases (mem_keys_failed1 env list d).mp hmem with ⟨_, hs, _⟩
      rw [h0] at hs
      exact Bool.noConfusion hs
    exact ⟨hk0, fun hc => hk0 (h1.mp hc), hk1, fun hc => hk1 (h2.mp hc)⟩
  · intro h0
    have hk1 : d ∉ keys (failed1 env list) := by
      intro hmem
      rcases (mem_keys_failed1 env list d).mp hmem with ⟨_, _, hs⟩
      rw [h0] at hs
      exact Bool.noConfusion hs
    exact ⟨hk1, fun hc => hk1 (h2.mp hc)⟩
  · intro hc
    exact (mem_keys_failed0 env list d).mp (h1.mp hc)
  · intro hc
    exact (mem_keys_failed1 env list d).mp (h2.mp hc)

/-- Witness for C5 at the concrete oracle `envW`: repository `a` succeeds
at tier 0 and is never rebased; repository `b` recovers at tier 1 and is
never reset. -/
theorem c5_witness :
    Cmd.rebase dirA ∉ tier1cmds envW listW ∧ Cmd.reset dirB ∉ tier2cmds envW listW :=
  ⟨((c5_monotone_escalation envW listW dirA).1 (by decide)).2.1,
   ((c5_monotone_escalation envW listW dirB).2.1 (by decide)).2⟩

/-- Counterexample to claim C6: repository `s` fails tier 0 (stored error
is the wrapped pull error) and then fails the tier-1 rebase with a
different error, but the stored record after tier 1 still holds the tier-0
error verbatim — the failed tier-1 attempt did not overwrite it (the code
only logs tier-1 and tier-2 errors; it never writes them into
`failedRepos`). -/
theorem c6_counterexample :
    envW.rebase1 dirS = some errS1 ∧
    failed1 envW listW = [(dirS, wrapPull dirS errS0), (dirZ, wrapPull dirZ errZ0)] ∧
    wrapPull dirS errS0 ≠ errS1 ∧ wrapPull dirS errS0 ≠ wrapPull dirS errS1 := by
  refine ⟨rfl, rfl, ?_, ?_⟩ <;> decide

/-- Claim C6, amended: the Failure Record is created when a tier-0 attempt
fails, storing the wrapped tier-0 error; a later failed attempt leaves the
stored error unchanged (entries of the map after tier 1 and tier 2 are
entries of the earlier maps, value included); and the entry is removed as
soon as any later tier's attempt for it succeeds. -/
theorem c6_failure_record (env : GitEnv) (list : List String) (d e : String) :
    (d ∈ list → (runCommand env.pull0 d).1 = some e → (d, e) ∈ failed0 env list) ∧
    ((d, e) ∈ failed1 env list → (d, e) ∈ failed0 env list) ∧
    ((d, e) ∈ failed2 env list → (d, e) ∈ failed1 env list) ∧
    (env.rebase1 d = none → d ∉ keys (failed1 env list)) ∧
    (env.reset2 d = none → (runCommand env.pull2 d).1 = none →
      d ∉ keys (failed2 env list)) := by
  refine ⟨?_, ?_, ?_, ?_, ?_⟩
  · intro h1 h2
    exact (mem_tier0_failed env list d e).mpr ⟨h1, h2⟩
  · intro h
    exact ((mem_tier1_failed env (failed0 env list) d e).mp h).1
  · intro h
    exact ((mem_tier2_failed env (failed1 env list) d e).mp h).1
  · intro h0 hmem
    rcases (mem_keys_failed1 env list d).mp hmem with ⟨_, _, hs⟩
    rw [h0] at hs
    exact Bool.noConfusion hs
  · intro h0 h1 hmem
    rcases (mem_keys_iff _ _).mp hmem with ⟨e2, he2⟩
    rcases (mem_tier2_failed env (failed1 env list) d e2).mp he2 with ⟨_, hs | hs⟩
    · rw [h0] at hs
      exact Bool.noConfusion hs
    · rw [h1] at hs
      exact Bool.noConfusion hs

/-- Witness for the amended C6 at `envW`: the record for `b` is created by
its tier-0 failure and removed by its tier-1 success. -/
theorem c6_witness :
    (dirB, wrapPull dirB errB0) ∈ failed0 envW listW ∧
    dirB ∉ keys (failed1 envW listW) :=
  ⟨(c6_failure_record envW listW dirB (wrapPull dirB errB0)).1 (by decide) (by decide),
   (c6_failure_record envW listW dirB (wrapPull dirB errB0)).2.2.2.1 (by decide)⟩

/-- Claim C7: for every repository still failing after tier 1 (with the
repository list free of duplicates, as the discovered set is), tier 2's
command trace contains that repository's segment — the destructive reset
first, followed by the standard retry pull exactly when the reset
succeeded, and nothing else (a failed reset means no retry); the reset is
spawned exactly once for it; tier-2 success (reset and retry both clean)
removes it from the record, and any tier-2 failure leaves its record entry
in place so it is reported StillFailing. -/
theorem c7_tier2_reset_then_retry (env : GitEnv) (list : List String) (d e : String)
    (hnd : list.Nodup) (hm : (d, e) ∈ failed1 env list) :
    (∃ pre post, tier2cmds env list = pre ++ (tier2seg env d ++ post)) ∧
    (tier2cmds env list).count (Cmd.reset d) = 1 ∧
    (env.reset2 d = none → (runCommand env.pull2 d).1 = none →
      d ∉ keys (failed2 env list)) ∧
    ((env.reset2 d).isSome = true ∨ ((runCommand env.pull2 d).1).isSome = true →
      (d, e) ∈ failed2 env list) := by
  have hk : (keys (failed1 env list)).Nodup := keys_failed1_nodup env list hnd
  have hdk : d ∈ keys (failed1 env list) := (mem_keys_iff _ _).mpr ⟨e, hm⟩
  refine ⟨tier2_cmds_seg env (failed1 env list) d e hm, ?_, ?_, ?_⟩
  · rw [show tier2cmds env list = (tier2 env (failed1 env list)).cmds from rfl,
      tier2_count_reset env (failed1 env list) d hk, if_pos hdk]
  · intro h0 h1 hmem
    rcases (mem_keys_iff _ _).mp hmem with ⟨e2, he2⟩
    rcases (mem_tier2_failed env (failed1 env list) d e2).mp he2 with ⟨_, hs | hs⟩
    · rw [h0] at hs
      exact Bool.noConfusion hs
    · rw [h1] at hs
      exact Bool.noConfusion hs
  · intro hor
    exact (mem_tier2_failed env (failed1 env list) d e).mpr ⟨hm, hor⟩

/-- Witness for C7 at `envW`: repository `s`, still failing after tier 1,
is reset exactly once and recovered by the tier-2 retry. -/
theorem c7_witness :
    (tier2cmds envW listW).count (Cmd.reset dirS) = 1 ∧
    dirS ∉ keys (failed2 envW listW) :=
  ⟨(c7_tier2_reset_then_retry envW listW dirS (wrapPull dirS errS0)
      (by decide) (by decide)).2.1,
   (c7_tier2_reset_then_retry envW listW dirS (wrapPull dirS errS0)
      (by decide) (by decide)).2.2.1 (by decide) (by decide)⟩

/-- Claim C9: every repository StillFailing at the end of the run has an
error line naming it in tier 2's log, which is the final segment of the
completed run's log (so partial success is never silent); and the executor
returns no failure signal — the `flags.pull` branch of `main` exits with
code 0 no matter what the final record holds. -/
theorem c9_stillfailing_surfaced (env : GitEnv) (list : List String) (sigD : Bool)
    (d e : String) :
    ((d, e) ∈ failed2 env list →
      (∃ e2, LogEvent.errReset d e2 ∈ (tier2 env (failed1 env list)).log) ∨
      (∃ e2, LogEvent.errPullAfterReset d e2 ∈ (tier2 env (failed1 env list)).log)) ∧
    (∃ cs l0 l1, pullGitRepos env list false sigD =
      PullOutcome.completed (failed2 env list) cs
        (l0 ++ l1 ++ (tier2 env (failed1 env list)).log)) ∧
    mainPullExitCode env list false sigD = 0 := by
  refine ⟨?_, ⟨_, _, _, rfl⟩, rfl⟩
  intro h
  exact tier2_failed_logged env (failed1 env list) d e h

/-- Witness for C9 at `envW`: repository `z` is StillFailing and has an
error line in the tier-2 log; the process still exits with code 0. -/
theorem c9_witness :
    ((∃ e2, LogEvent.errReset dirZ e2 ∈ (tier2 envW (failed1 envW listW)).log) ∨
     (∃ e2, LogEvent.errPullAfterReset dirZ e2 ∈ (tier2 envW (failed1 envW listW)).log)) ∧
    mainPullExitCode envW listW false false = 0 :=
  ⟨(c9_stillfailing_surfaced envW listW false dirZ (wrapPull dirZ errZ0)).1 (by decide),
   (c9_stillfailing_surfaced envW listW false dirZ (wrapPull dirZ errZ0)).2.2⟩

end SyncRepo
